import Mathlib

/-!
Verification of the rockbox_fetch deployment pipeline (src/rockbox_fetch.py).

The embedding models the filesystem state the script mutates as an explicit
value: a set of directory paths plus an association list from file paths to
byte contents, exactly the data `os.walk` enumerates and `mkdir`/`copy2`
update.  Each Python function of the deployment core (`merge_copy`,
`create_backup`, `list_backups`, `restore_backup`, `unzip_and_deploy`,
`latest_nightly_url_for_device`, `nightly_url_for_date`, the retry
configuration, and the `main` install/revert branches) is translated into a
Lean function over this state; network access is an injected capability,
timestamps are injected strings.
-/

set_option maxHeartbeats 1000000

namespace RockboxFetch

/-- Relative filesystem paths, one name component per list element. -/
abbrev Path := List String

/-- Raw file contents (a byte is a `Nat`). -/
abbrev Bytes := List Nat

/-- First-match association-list lookup; models a name lookup in a directory
listing or a map from paths to data. -/
def alookup {α : Type} (k : Path) : List (Path × α) → Option α
  | [] => none
  | (k', v) :: l => if k' = k then some v else alookup k l

/-- Left-biased choice on options. -/
def orElseO {α : Type} : Option α → Option α → Option α
  | some x, _ => some x
  | none, b => b

/-- A directory tree (or a whole volume).  `dirs` lists every directory's
relative path, as `os.walk` enumerates them (the root is `[]`); `files` maps
file paths to contents. -/
structure FS where
  dirs : List Path
  files : List (Path × Bytes)
deriving DecidableEq

/-- Models `Path.mkdir(exist_ok=True)`: create the directory if absent,
never replace it if present. -/
def mkdirExistOk (v : FS) (p : Path) : FS :=
  if p ∈ v.dirs then v else ⟨p :: v.dirs, v.files⟩

/-- Models `shutil.copy2(src, dst)`: write the file at `p`, overwriting any
existing file at that path (first-match lookup sees the new entry). -/
def setFile (p : Path) (b : Bytes) (v : FS) : FS :=
  ⟨v.dirs, (p, b) :: v.files⟩

/-- Translation of `merge_copy(src_dir, dst_dir)` acting at offset `pre`
inside the volume `dst`:

    dst_dir.mkdir(exist_ok=True)
    for root, dirs, files in os.walk(src_dir):
        rel = Path(root).relative_to(src_dir)
        dst_sub = dst_dir / rel; dst_sub.mkdir(exist_ok=True)
        for d in dirs: (dst_sub / d).mkdir(exist_ok=True)
        for f in files: shutil.copy2(Path(root)/f, dst_sub/f)

The walk visits exactly the directories in `src.dirs` (the source root `[]`
first) and the files in `src.files`; every visited directory is created with
`exist_ok` and every file is copied with overwrite. -/
def mergeCopyAt (pre : Path) (src dst : FS) : FS :=
  let d1 := mkdirExistOk dst pre
  let d2 := src.dirs.foldl (fun acc d => mkdirExistOk acc (pre ++ d)) d1
  src.files.foldl (fun acc pf => setFile (pre ++ pf.1) pf.2 acc) d2

/-- `merge_copy(src_dir, dst_dir)` on two trees rooted at the same place. -/
def merge_copy (src dst : FS) : FS := mergeCopyAt [] src dst

/-- Two filesystem values describe the byte-for-byte identical tree: the same
directories exist and every path holds the same file contents. -/
def FS.sameTree (a b : FS) : Prop :=
  (∀ p, p ∈ a.dirs ↔ p ∈ b.dirs) ∧ ∀ p, alookup p a.files = alookup p b.files

theorem mem_dirs_mkdir (v : FS) (p q : Path) :
    q ∈ (mkdirExistOk v p).dirs ↔ q ∈ v.dirs ∨ q = p := by
  unfold mkdirExistOk
  split
  · constructor
    · exact fun h => Or.inl h
    · rintro (h | rfl)
      · exact h
      · assumption
  · simp [List.mem_cons, or_comm]

theorem files_mkdir (v : FS) (p : Path) : (mkdirExistOk v p).files = v.files := by
  unfold mkdirExistOk; split <;> rfl

theorem mem_dirs_foldl_mkdir (l : List Path) (pre : Path) (v : FS) (q : Path) :
    q ∈ (l.foldl (fun acc d => mkdirExistOk acc (pre ++ d)) v).dirs
      ↔ q ∈ v.dirs ∨ ∃ d ∈ l, q = pre ++ d := by
  induction l generalizing v with
  | nil => simp
  | cons x l ih =>
    simp only [List.foldl_cons, ih, mem_dirs_mkdir, List.mem_cons]
    constructor
    · rintro ((h | rfl) | ⟨d, hd, rfl⟩)
      · exact Or.inl h
      · exact Or.inr ⟨x, Or.inl rfl, rfl⟩
      · exact Or.inr ⟨d, Or.inr hd, rfl⟩
    · rintro (h | ⟨d, rfl | hd, rfl⟩)
      · exact Or.inl (Or.inl h)
      · exact Or.inl (Or.inr rfl)
      · exact Or.inr ⟨d, hd, rfl⟩

theorem files_foldl_mkdir (l : List Path) (pre : Path) (v : FS) :
    (l.foldl (fun acc d => mkdirExistOk acc (pre ++ d)) v).files = v.files := by
  induction l generalizing v with
  | nil => rfl
  | cons x l ih => simp only [List.foldl_cons, ih, files_mkdir]

theorem dirs_foldl_set (l : List (Path × Bytes)) (pre : Path) (v : FS) :
    (l.foldl (fun acc pf => setFile (pre ++ pf.1) pf.2 acc) v).dirs = v.dirs := by
  induction l generalizing v with
  | nil => rfl
  | cons x l ih => simp only [List.foldl_cons, ih]; rfl

theorem alookup_append {α : Type} (k : Path) (a b : List (Path × α)) :
    alookup k (a ++ b) = orElseO (alookup k a) (alookup k b) := by
  induction a with
  | nil => rfl
  | cons x a ih =>
    obtain ⟨k', v⟩ := x
    by_cases h : k' = k
    · simp [alookup, h, orElseO]
    · simp [alookup, h, ih]

theorem orElseO_assoc {α : Type} (a b c : Option α) :
    orElseO (orElseO a b) c = orElseO a (orElseO b c) := by cases a <;> rfl

theorem orElseO_self_left {α : Type} (a b : Option α) :
    orElseO a (orElseO a b) = orElseO a b := by cases a <;> rfl

theorem alookup_foldl_set (l : List (Path × Bytes)) (pre : Path) (v : FS) (q : Path) :
    alookup q ((l.foldl (fun acc pf => setFile (pre ++ pf.1) pf.2 acc) v).files)
      = orElseO (alookup q ((l.map (fun pf => (pre ++ pf.1, pf.2))).reverse))
          (alookup q v.files) := by
  induction l generalizing v with
  | nil => rfl
  | cons x l ih =>
    simp only [List.foldl_cons, List.map_cons, List.reverse_cons]
    rw [ih, alookup_append]
    have hx : alookup q ((setFile (pre ++ x.1) x.2 v).files)
        = orElseO (alookup q [(pre ++ x.1, x.2)]) (alookup q v.files) := by
      by_cases h : pre ++ x.1 = q <;> simp [setFile, alookup, h, orElseO]
    rw [hx, orElseO_assoc]

theorem mem_dirs_mergeCopyAt (pre : Path) (s v : FS) (q : Path) :
    q ∈ (mergeCopyAt pre s v).dirs
      ↔ q ∈ v.dirs ∨ q = pre ∨ ∃ d ∈ s.dirs, q = pre ++ d := by
  unfold mergeCopyAt
  simp only [dirs_foldl_set, mem_dirs_foldl_mkdir, mem_dirs_mkdir]
  tauto

theorem alookup_mergeCopyAt (pre : Path) (s v : FS) (q : Path) :
    alookup q (mergeCopyAt pre s v).files
      = orElseO (alookup q ((s.files.map (fun pf => (pre ++ pf.1, pf.2))).reverse))
          (alookup q v.files) := by
  unfold mergeCopyAt
  rw [alookup_foldl_set, files_foldl_mkdir, files_mkdir]

theorem mem_dirs_merge_copy (S D : FS) (q : Path) :
    q ∈ (merge_copy S D).dirs ↔ q ∈ D.dirs ∨ q = [] ∨ q ∈ S.dirs := by
  unfold merge_copy
  rw [mem_dirs_mergeCopyAt]
  simp

theorem alookup_merge_copy (S D : FS) (q : Path) :
    alookup q (merge_copy S D).files
      = orElseO (alookup q S.files.reverse) (alookup q D.files) := by
  unfold merge_copy
  rw [alookup_mergeCopyAt]
  have h : S.files.map (fun pf => (([] : Path) ++ pf.1, pf.2)) = S.files := by
    simp
  rw [h]

/-- The keys of an association list, in order. -/
def keyList {α : Type} : List (Path × α) → List Path
  | [] => []
  | x :: l => x.1 :: keyList l

theorem keyList_append {α : Type} (a b : List (Path × α)) :
    keyList (a ++ b) = keyList a ++ keyList b := by
  induction a with
  | nil => rfl
  | cons x a ih => simp [keyList, ih]

theorem keyList_reverse {α : Type} (l : List (Path × α)) :
    keyList l.reverse = (keyList l).reverse := by
  induction l with
  | nil => rfl
  | cons x l ih => simp [keyList, List.reverse_cons, keyList_append, ih]

theorem alookup_eq_none {α : Type} (k : Path) (l : List (Path × α)) :
    alookup k l = none ↔ k ∉ keyList l := by
  induction l with
  | nil => simp [alookup, keyList]
  | cons x l ih =>
    obtain ⟨k', v⟩ := x
    by_cases h : k' = k
    · simp [alookup, keyList, h]
    · have h2 : ¬ k = k' := fun hh => h hh.symm
      simp [alookup, keyList, h, ih, h2]

theorem isSome_alookup {α : Type} (k : Path) (l : List (Path × α)) :
    (alookup k l).isSome = true ↔ k ∈ keyList l := by
  induction l with
  | nil => simp [alookup, keyList]
  | cons x l ih =>
    obtain ⟨k', v⟩ := x
    by_cases h : k' = k
    · simp [alookup, keyList, h]
    · have h2 : ¬ k = k' := fun hh => h hh.symm
      simp [alookup, keyList, h, ih, h2]

theorem alookup_reverse_eq_none {α : Type} (k : Path) (l : List (Path × α)) :
    alookup k l.reverse = none ↔ alookup k l = none := by
  simp [alookup_eq_none, keyList_reverse]

theorem isSome_alookup_reverse {α : Type} (k : Path) (l : List (Path × α)) :
    (alookup k l.reverse).isSome = true ↔ (alookup k l).isSome = true := by
  simp [isSome_alookup, keyList_reverse]

/-- C1: merge-copy only creates directories and adds or overwrites files at
paths present in the source tree; every file or directory present only in the
destination is still present and byte-for-byte unchanged afterwards, and no
destination file is ever deleted.  The hypothesis records that the walked
source directory set always contains the source root (the first directory
`os.walk` yields). -/
theorem merge_copy_nondestructive (S D : FS) (p : Path) (hroot : [] ∈ S.dirs) :
    (p ∈ D.dirs → p ∈ (merge_copy S D).dirs)
  ∧ (alookup p S.files = none →
       alookup p (merge_copy S D).files = alookup p D.files)
  ∧ (p ∈ (merge_copy S D).dirs → p ∈ D.dirs ∨ p ∈ S.dirs)
  ∧ ((alookup p (merge_copy S D).files).isSome = true →
       (alookup p S.files).isSome = true ∨ (alookup p D.files).isSome = true)
  ∧ ((alookup p D.files).isSome = true →
       (alookup p (merge_copy S D).files).isSome = true) := by
  refine ⟨?_, ?_, ?_, ?_, ?_⟩
  · intro h
    exact (mem_dirs_merge_copy S D p).mpr (Or.inl h)
  · intro h
    rw [alookup_merge_copy, (alookup_reverse_eq_none p S.files).mpr h]
    rfl
  · intro h
    rcases (mem_dirs_merge_copy S D p).mp h with h | h | h
    · exact Or.inl h
    · exact Or.inr (h ▸ hroot)
    · exact Or.inr h
  · intro h
    rw [alookup_merge_copy] at h
    cases hs : alookup p S.files.reverse with
    | some b =>
      left
      have := (isSome_alookup_reverse p S.files).mp (by rw [hs]; rfl)
      exact this
    | none =>
      right
      rw [hs] at h
      exact h
  · intro h
    rw [alookup_merge_copy]
    cases hs : alookup p S.files.reverse with
    | some b => rfl
    | none => exact h

/-- Witness for C1 at concrete trees: a source shipping `rockbox.bin` and a
`codecs` directory, a destination holding a user file `user.cfg` and a user
directory `themes`. -/
theorem merge_copy_nondestructive_witness :
    (["themes"] : Path) ∈ (merge_copy
        ⟨[[], ["codecs"]], [(["rockbox.bin"], [1]), (["codecs", "a"], [2])]⟩
        ⟨[[], ["themes"]], [(["user.cfg"], [9]), (["rockbox.bin"], [0])]⟩).dirs
  ∧ alookup ["user.cfg"] (merge_copy
        ⟨[[], ["codecs"]], [(["rockbox.bin"], [1]), (["codecs", "a"], [2])]⟩
        ⟨[[], ["themes"]], [(["user.cfg"], [9]), (["rockbox.bin"], [0])]⟩).files
      = alookup ["user.cfg"]
          [((["user.cfg"] : Path), ([9] : Bytes)), (["rockbox.bin"], [0])]
  ∧ ((["codecs"] : Path) ∈ (⟨[[], ["themes"]],
        [(["user.cfg"], [9]), (["rockbox.bin"], [0])]⟩ : FS).dirs
      ∨ (["codecs"] : Path) ∈ (⟨[[], ["codecs"]],
        [(["rockbox.bin"], [1]), (["codecs", "a"], [2])]⟩ : FS).dirs)
  ∧ (alookup ["user.cfg"] (merge_copy
        ⟨[[], ["codecs"]], [(["rockbox.bin"], [1]), (["codecs", "a"], [2])]⟩
        ⟨[[], ["themes"]], [(["user.cfg"], [9]), (["rockbox.bin"], [0])]⟩).files).isSome
      = true := by
  refine ⟨?_, ?_, ?_, ?_⟩
  · exact (merge_copy_nondestructive _ _ ["themes"] (by decide)).1 (by decide)
  · exact (merge_copy_nondestructive _ _ ["user.cfg"] (by decide)).2.1 (by decide)
  · exact (merge_copy_nondestructive _ _ ["codecs"] (by decide)).2.2.1 (by decide)
  · exact (merge_copy_nondestructive _ _ ["user.cfg"] (by decide)).2.2.2.2 (by decide)

/-- C9: merge is idempotent; running `merge_copy(S, D)` twice in sequence
yields the byte-for-byte identical destination tree produced by a single
merge. -/
theorem merge_copy_idempotent (S D : FS) :
    FS.sameTree (merge_copy S (merge_copy S D)) (merge_copy S D) := by
  constructor
  · intro p
    simp only [mem_dirs_merge_copy]
    tauto
  · intro p
    simp only [alookup_merge_copy, orElseO_self_left]

/-- Error taxonomy.  The script fails through `die(msg)` (a typed
`SystemExit` with a message); each `die` site is mapped to the taxonomy kind
its message denotes.  `indexError` is distinct: it models an uncaught Python
`IndexError` (an untyped crash, not a `die`). -/
inductive Err where
  | notFound
  | invalidSelector
  | unreachable
  | forbidden
  | invalidArchive
  | permissionDenied
  | corrupt
  | indexError
deriving DecidableEq

/-- Mirrors `_retry = Retry(total=3, ...)`: the retry budget. -/
def retry_total : Nat := 3

/-- Mirrors `status_forcelist=(403, 429, 500, 502, 503, 504)` of the
session's `Retry` configuration: the statuses that trigger a retry. -/
def status_forcelist : List Nat := [403, 429, 500, 502, 503, 504]

/-- One urllib3 `Retry` loop over a stub transport: `stub n` is the HTTP
status the `n`-th request receives.  The loop issues a request, and while the
received status is in `status_forcelist` and retry budget remains, issues
another.  Returns `(number of requests issued so far plus one, final
status)` when started at request index `i` with `remaining` retries left. -/
def retryFetch (stub : Nat → Nat) : Nat → Nat → Nat × Nat
  | remaining, i =>
    if status_forcelist.contains (stub i) then
      match remaining with
      | 0 => (i + 1, stub i)
      | r + 1 => retryFetch stub r (i + 1)
    else (i + 1, stub i)

theorem retryFetch_fst_gt (stub : Nat → Nat) :
    ∀ r i : Nat, i < (retryFetch stub r i).1 := by
  intro r
  induction r with
  | zero =>
    intro i
    unfold retryFetch
    split
    · exact Nat.lt_succ_self i
    · exact Nat.lt_succ_self i
  | succ r ih =>
    intro i
    unfold retryFetch
    split
    · exact Nat.lt_trans (Nat.lt_succ_self i) (ih (i + 1))
    · exact Nat.lt_succ_self i

/-- C2 counterexample: 403 is in the configured retry forcelist, and a
transport that answers 403 to every request is asked 4 times (1 attempt plus
the full retry budget of 3), not once; the claim that a fetch receiving 403
fails without any further attempts is false on this configuration. -/
theorem retry_403_counterexample :
    status_forcelist.contains 403 = true
  ∧ (retryFetch (fun _ => 403) retry_total 0).1 = 4
  ∧ (retryFetch (fun _ => 403) retry_total 0).1 ≠ 1 := by
  exact ⟨rfl, rfl, by decide⟩

/-- C2 amended: the session retries exactly on the configured status set
{403, 429, 500, 502, 503, 504} (plus connection-level errors), with a budget
of 3 retries; any status outside the set is terminal immediately.  In
particular 403 IS retried (4 requests before failing), a stub answering 503
twice then 200 succeeds on the third request with the 200 payload, and a
stub answering 404 is terminal after a single request. -/
theorem retry_policy_amended (stub : Nat → Nat) (r i : Nat) :
    (status_forcelist.contains (stub i) = false → retryFetch stub r i = (i + 1, stub i))
  ∧ ((retryFetch stub r i).1 = i + 1
      ↔ status_forcelist.contains (stub i) = false ∨ r = 0)
  ∧ status_forcelist = [403, 429, 500, 502, 503, 504]
  ∧ (retryFetch (fun n => if n < 2 then 503 else 200) retry_total 0) = (3, 200)
  ∧ (retryFetch (fun _ => 403) retry_total 0).1 = 4 := by
  refine ⟨?_, ⟨?_, ?_⟩, rfl, rfl, rfl⟩
  · intro h
    unfold retryFetch
    rw [h]
    simp
  · intro h
    by_cases hs : status_forcelist.contains (stub i) = true
    · right
      match r with
      | 0 => rfl
      | r' + 1 =>
        exfalso
        unfold retryFetch at h
        rw [hs] at h
        simp only [if_true] at h
        have := retryFetch_fst_gt stub r' (i + 1)
        omega
    · left
      exact Bool.not_eq_true _ ▸ (by simpa using hs)
  · intro h
    rcases h with h | h
    · unfold retryFetch
      rw [h]
      simp
    · subst h
      unfold retryFetch
      split <;> rfl

/-- Witness for C2's amended theorem: a stub answering 404 is terminal after
one request. -/
theorem retry_policy_amended_witness :
    retryFetch (fun _ => 404) retry_total 0 = (1, 404) :=
  (retry_policy_amended (fun _ => 404) retry_total 0).1 rfl

def BASE_RELEASE : String := "https://download.rockbox.org/release/"

def BASE_DAILY : String := "https://download.rockbox.org/daily/"

def DAILY_SHTML : String := "https://www.rockbox.org/daily.shtml"

/-- `DAILY_INDEX_TMPL.format(device=device)`. -/
def dailyIndexUrl (device : String) : String := BASE_DAILY ++ device ++ "/"

/-- The joined nightly artifact URL
`urljoin(BASE_DAILY + device + "/", "rockbox-<device>-<date>.zip")`. -/
def nightlyZipUrl (device date : String) : String :=
  BASE_DAILY ++ device ++ "/rockbox-" ++ device ++ "-" ++ date ++ ".zip"

/-- `release_url(device, version)`:
`urljoin(BASE_RELEASE, version + "/rockbox-" + device + "-" + version + ".zip")`. -/
def release_url (device version : String) : String :=
  BASE_RELEASE ++ version ++ "/rockbox-" ++ device ++ "-" ++ version ++ ".zip"

/-- Strip an expected leading character run: `dropLeadC l q` returns the
remainder of `q` when `q` starts with `l`. -/
def dropLeadC : List Char → List Char → Option (List Char)
  | [], q => some q
  | _ :: _, [] => none
  | a :: l, b :: q => if a = b then dropLeadC l q else none

/-- Character class `[a-z0-9]` of `NIGHTLY_RE`. -/
def isLowerAlnum (c : Char) : Bool :=
  (97 ≤ c.toNat && c.toNat ≤ 122) || c.isDigit

/-- Full match of `NIGHTLY_RE = rockbox-(?P<device>[a-z0-9]+)-(?P<date>\d{8})\.zip`
against one candidate token, returning the `(device, date)` groups:
the token is `rockbox-` ++ device ++ `-` ++ date ++ `.zip` with a non-empty
`[a-z0-9]` device and an 8-digit date. -/
def matchNightly (t : String) : Option (String × String) :=
  match dropLeadC ("rockbox-".toList) t.toList with
  | none => none
  | some rest =>
    if rest.drop (rest.length - 4) = ".zip".toList ∧ 4 ≤ rest.length then
      let core := rest.take (rest.length - 4)
      if 10 ≤ core.length then
        let date := core.drop (core.length - 8)
        let device := core.take (core.length - 9)
        let sep := (core.drop (core.length - 9)).take 1
        if sep = ['-'] ∧ date.all Char.isDigit = true ∧ device ≠ []
            ∧ device.all isLowerAlnum = true then
          some (String.mk device, String.mk date)
        else none
      else none
    else none

/-- The date-group extraction
`[m.group("date") for m in NIGHTLY_RE.finditer(text) if m.group("device") == device]`
over a page given as its candidate tokens. -/
def scanDates (device : String) (toks : List String) : List String :=
  toks.filterMap (fun t =>
    match matchNightly t with
    | some dd => if dd.1 = device then some dd.2 else none
    | none => none)

/-- An index page, abstracted as the candidate tokens seen by the direct
`finditer` scan over the raw text, and the `href="..."` attribute values the
second scan extracts from the same text. -/
structure Page where
  tokens : List String
  hrefs : List String
deriving DecidableEq

/-- Lexicographic strict order on character lists by code point — the order
Python uses to compare `str` values. -/
def listLtB : List Char → List Char → Bool
  | [], [] => false
  | [], _ :: _ => true
  | _ :: _, [] => false
  | a :: as, b :: bs =>
    if a.toNat < b.toNat then true
    else if b.toNat < a.toNat then false
    else listLtB as bs

/-- Python's `<` on strings. -/
def strLtB (a b : String) : Bool := listLtB a.toList b.toList

/-- One step of Python's `max` loop: replace the current maximum by a
strictly larger element. -/
def strMax (m d : String) : String := if strLtB m d = true then d else m

/-- Python's `max` over a non-empty list, given as head and tail. -/
def pyMax (x : String) (xs : List String) : String := xs.foldl strMax x

/-- Translation of `latest_nightly_url_for_device(device)`, with the
page-fetch (`get_text`) injected as `capability`:

    text = get_text(DAILY_INDEX_TMPL.format(device=device))
    dates = [..finditer over text..]
    if not dates: [..href scan over the same text..]
    if not dates: die NotFound
    latest = max(dates)
    return urljoin(...), latest

A failing `get_text` propagates its error; no other URL is ever fetched. -/
def latest_nightly_url_for_device (capability : String → Except Err Page)
    (device : String) : Except Err (String × String) :=
  match capability (dailyIndexUrl device) with
  | Except.error e => Except.error e
  | Except.ok page =>
    let ds := scanDates device page.tokens
    let ds' := if ds.isEmpty then scanDates device page.hrefs else ds
    match ds' with
    | [] => Except.error Err.notFound
    | x :: xs => Except.ok (nightlyZipUrl device (pyMax x xs), pyMax x xs)

/-- Selector check `re.fullmatch(r"\d{8}", yyyymmdd)`. -/
def isEightDigits (s : String) : Bool := s.length == 8 && s.toList.all Char.isDigit

/-- Translation of `nightly_url_for_date(device, yyyymmdd)`: validate the
selector is exactly 8 digits (`die` = `InvalidSelector` otherwise) and
compose the URL; no index is consulted (the function takes no fetch
capability). -/
def nightly_url_for_date (device yyyymmdd : String) : Except Err String :=
  if isEightDigits yyyymmdd then Except.ok (nightlyZipUrl device yyyymmdd)
  else Except.error Err.invalidSelector

/-- Whether an `Except` result is a success. -/
def exOk {α : Type} : Except Err α → Bool
  | Except.ok _ => true
  | Except.error _ => false

theorem listLtB_irrefl : ∀ l : List Char, listLtB l l = false := by
  intro l
  induction l with
  | nil => rfl
  | cons a as ih =>
    unfold listLtB
    simp only [Nat.lt_irrefl, if_false, ih]

theorem listLtB_nil_right : ∀ l : List Char, listLtB l [] = false := by
  intro l
  cases l <;> rfl

theorem listLtB_ge_trans :
    ∀ a b c : List Char, listLtB a b = false → listLtB b c = false →
      listLtB a c = false := by
  intro a
  induction a with
  | nil =>
    intro b c h1 h2
    cases b with
    | nil => exact h2
    | cons b0 bs => simp [listLtB] at h1
  | cons a0 as ih =>
    intro b c h1 h2
    cases c with
    | nil => exact listLtB_nil_right _
    | cons c0 cs =>
      cases b with
      | nil => simp [listLtB] at h2
      | cons b0 bs =>
        unfold listLtB at h1 h2 ⊢
        rcases Nat.lt_trichotomy a0.toNat b0.toNat with h1c | h1c | h1c
        · rw [if_pos (by omega)] at h1
          exact absurd h1 (by simp)
        · rw [if_neg (by omega), if_neg (by omega)] at h1
          rcases Nat.lt_trichotomy b0.toNat c0.toNat with h2c | h2c | h2c
          · rw [if_pos (by omega)] at h2
            exact absurd h2 (by simp)
          · rw [if_neg (by omega), if_neg (by omega)] at h2
            rw [if_neg (by omega), if_neg (by omega)]
            exact ih bs cs h1 h2
          · rw [if_neg (by omega), if_pos (by omega)]
        · rcases Nat.lt_trichotomy b0.toNat c0.toNat with h2c | h2c | h2c
          · rw [if_pos (by omega)] at h2
            exact absurd h2 (by simp)
          · rw [if_neg (by omega), if_pos (by omega)]
          · rw [if_neg (by omega), if_pos (by omega)]

theorem listLtB_asymm :
    ∀ a b : List Char, listLtB a b = true → listLtB b a = false := by
  intro a
  induction a with
  | nil =>
    intro b h
    exact listLtB_nil_right b
  | cons a0 as ih =>
    intro b h
    cases b with
    | nil => rw [listLtB_nil_right] at h; exact absurd h (by simp)
    | cons b0 bs =>
      unfold listLtB at h ⊢
      rcases Nat.lt_trichotomy a0.toNat b0.toNat with hc | hc | hc
      · rw [if_neg (by omega), if_pos (by omega)]
      · rw [if_neg (by omega), if_neg (by omega)] at h
        rw [if_neg (by omega), if_neg (by omega)]
        exact ih bs h
      · rw [if_neg (by omega), if_pos (by omega)] at h
        exact absurd h (by simp)

theorem strLtB_strMax_left (m d : String) : strLtB (strMax m d) m = false := by
  unfold strMax
  split_ifs with h
  · exact listLtB_asymm m.toList d.toList h
  · exact listLtB_irrefl m.toList

theorem strLtB_strMax_right (m d : String) : strLtB (strMax m d) d = false := by
  unfold strMax
  split_ifs with h
  · exact listLtB_irrefl d.toList
  · exact Bool.not_eq_true _ ▸ (by simpa using h)

theorem strMax_choice (m d : String) : strMax m d = m ∨ strMax m d = d := by
  unfold strMax
  split_ifs
  · exact Or.inr rfl
  · exact Or.inl rfl

theorem pyMax_spec (xs : List String) :
    ∀ x : String, pyMax x xs ∈ x :: xs
      ∧ ∀ d ∈ x :: xs, strLtB (pyMax x xs) d = false := by
  induction xs with
  | nil =>
    intro x
    refine ⟨List.mem_cons.mpr (Or.inl rfl), ?_⟩
    intro d hd
    rcases List.mem_cons.mp hd with rfl | hd
    · exact listLtB_irrefl _
    · cases hd
  | cons y ys ih =>
    intro x
    obtain ⟨hmem, hbound⟩ := ih (strMax x y)
    have hstep : pyMax x (y :: ys) = pyMax (strMax x y) ys := rfl
    rw [hstep]
    constructor
    · rcases List.mem_cons.mp hmem with h | h
      · rcases strMax_choice x y with h' | h'
        · exact List.mem_cons.mpr (Or.inl (h.trans h'))
        · exact List.mem_cons.mpr (Or.inr (List.mem_cons.mpr (Or.inl (h.trans h'))))
      · exact List.mem_cons.mpr (Or.inr (List.mem_cons.mpr (Or.inr h)))
    · intro d hd
      have hM : strLtB (pyMax (strMax x y) ys) (strMax x y) = false :=
        hbound (strMax x y) (List.mem_cons.mpr (Or.inl rfl))
      rcases List.mem_cons.mp hd with h | hd2
      · rw [h]
        exact listLtB_ge_trans _ _ _ hM (strLtB_strMax_left x y)
      · rcases List.mem_cons.mp hd2 with h | h3
        · rw [h]
          exact listLtB_ge_trans _ _ _ hM (strLtB_strMax_right x y)
        · exact hbound d (List.mem_cons.mpr (Or.inr h3))

/-- C6: whenever the primary index page yields a non-empty list of build
identifiers matching the nightly pattern for the device, latest-nightly
resolution returns the lexicographically maximum date among them (it is one
of the scanned dates and no scanned date exceeds it in the code-point
lexicographic order Python's `max` uses), together with its composed
artifact URL. -/
theorem latest_nightly_selects_max (capability : String → Except Err Page)
    (device : String) (page : Page) (x : String) (xs : List String)
    (hcap : capability (dailyIndexUrl device) = Except.ok page)
    (hscan : scanDates device page.tokens = x :: xs) :
    latest_nightly_url_for_device capability device
        = Except.ok (nightlyZipUrl device (pyMax x xs), pyMax x xs)
  ∧ pyMax x xs ∈ x :: xs
  ∧ ∀ d ∈ x :: xs, strLtB (pyMax x xs) d = false := by
  refine ⟨?_, (pyMax_spec xs x).1, (pyMax_spec xs x).2⟩
  unfold latest_nightly_url_for_device
  rw [hcap]
  simp only [hscan, List.isEmpty_cons, Bool.false_eq_true, if_false]

/-- Witness for C6 at the spec's example: identifiers 20250101, 20250815,
20250822 for a device; resolution selects 20250822. -/
theorem latest_nightly_selects_max_witness :
    latest_nightly_url_for_device
        (fun _ => Except.ok ⟨["rockbox-erosqnative-20250101.zip",
            "rockbox-erosqnative-20250815.zip",
            "rockbox-erosqnative-20250822.zip"], []⟩) "erosqnative"
      = Except.ok (nightlyZipUrl "erosqnative" "20250822", "20250822") := by
  have h := latest_nightly_selects_max
      (fun _ => Except.ok ⟨["rockbox-erosqnative-20250101.zip",
          "rockbox-erosqnative-20250815.zip",
          "rockbox-erosqnative-20250822.zip"], []⟩) "erosqnative"
      ⟨["rockbox-erosqnative-20250101.zip",
        "rockbox-erosqnative-20250815.zip",
        "rockbox-erosqnative-20250822.zip"], []⟩
      "20250101" ["20250815", "20250822"] rfl (by decide)
  have hm : pyMax "20250101" ["20250815", "20250822"] = "20250822" := by decide
  rw [hm] at h
  exact h.1

/-- C8 amended: latest-nightly resolution depends only on the primary index
page; when the primary fetch fails the error propagates with no fallback
fetch of the secondary human-facing page; when the direct pattern scan of
the primary page is empty the same extraction is re-applied to the href
attributes of that same page; and `NotFound` arises exactly when both
passes over the primary page yield nothing. -/
theorem latest_nightly_primary_only (cap cap' : String → Except Err Page)
    (device : String)
    (hsame : cap (dailyIndexUrl device) = cap' (dailyIndexUrl device)) :
    latest_nightly_url_for_device cap device
        = latest_nightly_url_for_device cap' device
  ∧ (∀ e, cap (dailyIndexUrl device) = Except.error e →
        latest_nightly_url_for_device cap device = Except.error e)
  ∧ (∀ page, cap (dailyIndexUrl device) = Except.ok page →
        scanDates device page.tokens = [] → scanDates device page.hrefs = [] →
        latest_nightly_url_for_device cap device = Except.error Err.notFound)
  ∧ (∀ page x xs, cap (dailyIndexUrl device) = Except.ok page →
        scanDates device page.tokens = [] →
        scanDates device page.hrefs = x :: xs →
        latest_nightly_url_for_device cap device
          = Except.ok (nightlyZipUrl device (pyMax x xs), pyMax x xs)) := by
  refine ⟨?_, ?_, ?_, ?_⟩
  · unfold latest_nightly_url_for_device
    rw [hsame]
  · intro e he
    unfold latest_nightly_url_for_device
    rw [he]
  · intro page hp h1 h2
    unfold latest_nightly_url_for_device
    rw [hp]
    simp only [h1, h2, List.isEmpty_nil, if_true]
  · intro page x xs hp h1 h2
    unfold latest_nightly_url_for_device
    rw [hp]
    simp only [h1, h2, List.isEmpty_nil, if_true]

/-- Witness for C8's amended theorem: with a capability that cannot reach
the primary index, resolution fails with that very error. -/
theorem latest_nightly_primary_only_witness :
    latest_nightly_url_for_device (fun _ => Except.error Err.unreachable)
        "sansae200"
      = Except.error Err.unreachable :=
  (latest_nightly_primary_only (fun _ => Except.error Err.unreachable)
      (fun _ => Except.error Err.unreachable) "sansae200" rfl).2.1
    Err.unreachable rfl

/-- C8 counterexample: the primary nightly index is unavailable while the
secondary human-facing page (`daily.shtml`) does contain a matching
identifier, yet resolution fails with the primary fetch error — the code
never requests the secondary page, contradicting the claimed fallback. -/
theorem latest_nightly_no_secondary_fallback :
    latest_nightly_url_for_device
        (fun u => if u == DAILY_SHTML
          then Except.ok ⟨["rockbox-sansae200-20250101.zip"], []⟩
          else Except.error Err.unreachable) "sansae200"
      = Except.error Err.unreachable
  ∧ scanDates "sansae200" ["rockbox-sansae200-20250101.zip"] = ["20250101"] := by
  exact ⟨rfl, by decide⟩

/-- Observable actions of a pipeline run, in execution order.  `writeProbe`
is `ensure_writable`'s create-and-delete of a test file (its net effect on
the tree is nil, but it is a write); `mkdirBackups` is `backups_dir`'s
`mkdir(exist_ok=True)`; `snapshotWrite` is the tar write of
`create_backup`; `fetch` is `get_bytes`; `validate`/`unpack`/`mergeWrite`
are the steps of `unzip_and_deploy` (or of `restore_backup`). -/
inductive Event where
  | resolve (url : String)
  | writeProbe
  | mkdirBackups
  | snapshotWrite (p : Path)
  | fetch (url : String)
  | validate
  | unpack
  | mergeWrite
deriving DecidableEq

/-- The reserved snapshot directory `root / ".rockbox_backups"`. -/
def backupsPath : Path := [".rockbox_backups"]

/-- The managed subtree `root / ".rockbox"`. -/
def dotPath : Path := [".rockbox"]

/-- `Path.exists()`: the path names a directory or a file of the volume. -/
def pathExistsB (v : FS) (p : Path) : Bool :=
  decide (p ∈ v.dirs) || (alookup p v.files).isSome

/-- The state a run threads: the destination volume, the association of
snapshot-archive paths to the archived trees (the content of the tar files
the script writes and later extracts), and the event trace so far. -/
structure St where
  vol : FS
  tars : List (Path × FS)
  trace : List Event

/-- The mount-point world a run starts from. -/
structure World where
  vol : FS
  tars : List (Path × FS)

/-- Result of a `main` branch: final state plus a typed outcome.  The state
is kept also on failure — filesystem effects persist through an exception. -/
structure RunResult where
  vol : FS
  tars : List (Path × FS)
  trace : List Event
  outcome : Except Err Unit

/-- `ensure_writable(path)`: writes then deletes a probe file; net tree
unchanged, the write recorded in the trace. -/
def ensure_writableSt (s : St) : St :=
  ⟨s.vol, s.tars, s.trace ++ [Event.writeProbe]⟩

/-- `backups_dir(root)`: `b = root / ".rockbox_backups"; b.mkdir(exist_ok=True)`. -/
def backups_dirSt (s : St) : St :=
  ⟨mkdirExistOk s.vol backupsPath, s.tars, s.trace ++ [Event.mkdirBackups]⟩

/-- Strip an expected leading run of path components. -/
def dropLead : Path → Path → Option Path
  | [], q => some q
  | _ :: _, [] => none
  | a :: l, b :: q => if a = b then dropLead l q else none

/-- The subtree of the volume rooted at `pre` (what
`tar.add(dot_rockbox, arcname=".rockbox")` archives, and what a zip's
`.rockbox/` member set unpacks to). -/
def subtreeAt (pre : Path) (v : FS) : FS :=
  ⟨v.dirs.filterMap (fun d => dropLead pre d),
   v.files.filterMap (fun pf => (dropLead pre pf.1).map (fun q => (q, pf.2)))⟩

/-- Snapshot archive file name `rockbox-backup-<ts>.tar.gz`. -/
def tarName (ts : String) : String := "rockbox-backup-" ++ ts ++ ".tar.gz"

/-- Translation of `create_backup(dot_rockbox, dry, verbose)`:

    if not dot_rockbox.exists(): warn; return None
    out = backups_dir(dot_rockbox.parent) / f"rockbox-backup-{ts}.tar.gz"
    if dry: return out
    with tarfile.open(out, "w:gz") as tar: tar.add(dot_rockbox, ...)
    return out

Note `backups_dir` (and hence its `mkdir`) runs before the dry-run check.
The tar write records the archived subtree in `tars` and the archive file in
the volume. -/
def create_backupSt (dry : Bool) (ts : String) (s : St) : Option Path × St :=
  if pathExistsB s.vol dotPath = true then
    let s1 := backups_dirSt s
    let out := backupsPath ++ [tarName ts]
    if dry then (some out, s1)
    else
      (some out,
        ⟨setFile out [] s1.vol,
         (out, subtreeAt dotPath s1.vol) :: s1.tars,
         s1.trace ++ [Event.snapshotWrite out]⟩)
  else (none, s)

/-- A fetched zip artifact: its member name list (`zf.namelist()`) and the
tree its extraction produces. -/
structure Zip where
  names : List String
  tree : FS
deriving DecidableEq

/-- The validation `".rockbox" in {p.split("/")[0] for p in zf.namelist() if "/" in p}`. -/
def zipHasRockbox (z : Zip) : Bool :=
  z.names.any (fun n =>
    n.toList.contains '/'
      && ((n.toList.takeWhile (fun c => !(c == '/'))) == ".rockbox".toList))

/-- Translation of `unzip_and_deploy(zip_bytes, mount_root, dry, verbose)`:
validate the archive holds a top-level `.rockbox` (die `InvalidArchive`
otherwise), extract to a scratch directory, then — unless dry — merge the
scratch `.rockbox` into the destination `.rockbox`. -/
def unzip_and_deploySt (z : Zip) (dry : Bool) (s : St) : St × Except Err Unit :=
  if zipHasRockbox z = true then
    let s1 : St := ⟨s.vol, s.tars, s.trace ++ [Event.validate, Event.unpack]⟩
    if dry then (s1, Except.ok ())
    else
      (⟨mergeCopyAt dotPath (subtreeAt dotPath z.tree) s1.vol, s1.tars,
        s1.trace ++ [Event.mergeWrite]⟩, Except.ok ())
  else (⟨s.vol, s.tars, s.trace ++ [Event.validate]⟩, Except.error Err.invalidArchive)

/-- The build selector of an install invocation: `--date`, `--release`, or
neither (latest nightly). -/
inductive Selector where
  | date (d : String)
  | release (v : String)
  | latest
deriving DecidableEq

/-- URL resolution of `main`'s install branch: `--release` composes the
release URL, `--date` validates and composes the dated nightly URL, and
otherwise the latest nightly is resolved from the index. -/
def resolveUrl (cap : String → Except Err Page) (device : String) :
    Selector → Except Err String
  | Selector.release v => Except.ok (release_url device v)
  | Selector.date d => nightly_url_for_date device d
  | Selector.latest =>
    match latest_nightly_url_for_device cap device with
    | Except.ok ul => Except.ok ul.1
    | Except.error e => Except.error e

/-- Translation of `main`'s install path (the non-listing, non-revert
branch):

    url resolution → log → ensure_writable(mp) → create_backup(dot_rb, dry)
    → if dry: return → get_bytes(url) → unzip_and_deploy(...)

`cap` is the page-fetch used only by latest-nightly resolution; `fb` is
`get_bytes` returning the parsed artifact; `ts` the snapshot timestamp. -/
def mainInstall (cap : String → Except Err Page) (fb : String → Except Err Zip)
    (device : String) (sel : Selector) (dry : Bool) (ts : String)
    (w : World) : RunResult :=
  match resolveUrl cap device sel with
  | Except.error e => ⟨w.vol, w.tars, [], Except.error e⟩
  | Except.ok url =>
    let s2 := ensure_writableSt ⟨w.vol, w.tars, [Event.resolve url]⟩
    let s3 := (create_backupSt dry ts s2).2
    if dry then ⟨s3.vol, s3.tars, s3.trace, Except.ok ()⟩
    else
      match fb url with
      | Except.error e =>
        ⟨s3.vol, s3.tars, s3.trace ++ [Event.fetch url], Except.error e⟩
      | Except.ok z =>
        let sr := unzip_and_deploySt z dry
          ⟨s3.vol, s3.tars, s3.trace ++ [Event.fetch url]⟩
        ⟨sr.1.vol, sr.1.tars, sr.1.trace, sr.2⟩

/-- Glob pattern `rockbox-backup-*.tar.gz` on a file name. -/
def isBackupName (n : String) : Bool :=
  (dropLeadC ("rockbox-backup-".toList) n.toList).isSome
    && (n.toList.drop (n.toList.length - 7) == ".tar.gz".toList)
    && decide (7 ≤ n.toList.length)

/-- `list_backups(root)`: `sorted(backups_dir(root).glob("rockbox-backup-*.tar.gz"),
key=mtime)`.  Returns the matching snapshot paths (the volume's enumeration
order stands in for the mtime sort) and the volume after `backups_dir`'s
`mkdir`. -/
def list_backupsOp (v : FS) : List Path × FS :=
  (v.files.filterMap (fun pf =>
      match pf.1 with
      | [d, n] =>
        if d = ".rockbox_backups" ∧ isBackupName n = true then some pf.1 else none
      | _ => none),
   mkdirExistOk v backupsPath)

/-- Translation of `restore_backup(root, backup_tar, dry)` together with the
guard of `main`'s revert branch:

    if not backup_tar.exists(): die("Backup not found: ...")
    ensure_writable(mp)
    restore_backup(mp, backup_tar, dry)   # dry: log only
    # else: extract tar to scratch; merge_copy(scratch/".rockbox", root/".rockbox")

A tar path that is not a recorded snapshot extracts to nothing (empty tree). -/
def revertWith (bt : Path) (dry : Bool) (s : St) : RunResult :=
  if pathExistsB s.vol bt = true then
    let s1 := ensure_writableSt s
    if dry then ⟨s1.vol, s1.tars, s1.trace, Except.ok ()⟩
    else
      ⟨mergeCopyAt dotPath ((alookup bt s1.tars).getD ⟨[], []⟩) s1.vol, s1.tars,
       s1.trace ++ [Event.unpack, Event.mergeWrite], Except.ok ()⟩
  else ⟨s.vol, s.tars, s.trace, Except.error Err.notFound⟩

/-- Split a character list at `/` separators, accumulating the current
component in reverse. -/
def splitSlashAux : List Char → List Char → Path
  | [], acc => [String.mk acc.reverse]
  | c :: cs, acc =>
    if c = '/' then String.mk acc.reverse :: splitSlashAux cs []
    else splitSlashAux cs (c :: acc)

/-- `p.split("/")` on the selector string of an explicit revert path. -/
def splitSlash (s : String) : Path := splitSlashAux s.toList []

/-- Translation of `main`'s revert branch:

    backup_tar = list_backups(mp)[-1] if args.revert == "latest" else Path(args.revert)
    if not backup_tar.exists(): die(f"Backup not found: ...")
    ensure_writable(mp); restore_backup(mp, backup_tar, args.dry_run)

Python's `[-1]` on an empty list raises an uncaught `IndexError`; the state
reached so far (including `backups_dir`'s `mkdir`) persists. -/
def mainRevert (w : World) (sel : String) (dry : Bool) : RunResult :=
  if sel = "latest" then
    let lb := list_backupsOp w.vol
    let s1 : St := ⟨lb.2, w.tars, [Event.mkdirBackups]⟩
    match lb.1.getLast? with
    | none => ⟨s1.vol, s1.tars, s1.trace, Except.error Err.indexError⟩
    | some bt => revertWith bt dry s1
  else revertWith (splitSlash sel) dry ⟨w.vol, w.tars, []⟩

/-- C7: dated-nightly resolution succeeds exactly when the selector is a
string of exactly 8 digits, fails `InvalidSelector` otherwise (in particular
for "2025-08-22"), and never consults the index: resolving a dated selector
is independent of the injected page-fetch capability. -/
theorem nightly_date_validation (device yyyymmdd : String) :
    (exOk (nightly_url_for_date device yyyymmdd) = true
      ↔ yyyymmdd.length = 8 ∧ ∀ c ∈ yyyymmdd.toList, c.isDigit = true)
  ∧ nightly_url_for_date device "2025-08-22" = Except.error Err.invalidSelector
  ∧ ∀ cap cap' : String → Except Err Page,
      resolveUrl cap device (Selector.date yyyymmdd)
        = resolveUrl cap' device (Selector.date yyyymmdd) := by
  refine ⟨?_, ?_, fun cap cap' => rfl⟩
  · unfold nightly_url_for_date
    by_cases h : isEightDigits yyyymmdd = true
    · rw [if_pos h]
      unfold isEightDigits at h
      simp only [Bool.and_eq_true, beq_iff_eq, List.all_eq_true] at h
      simp only [exOk, true_iff]
      exact ⟨h.1, h.2⟩
    · rw [if_neg h]
      constructor
      · intro hfalse
        exact absurd hfalse (by simp [exOk])
      · intro hr
        exfalso
        apply h
        unfold isEightDigits
        simp only [Bool.and_eq_true, beq_iff_eq, List.all_eq_true]
        exact ⟨hr.1, hr.2⟩
  · unfold nightly_url_for_date
    rw [if_neg (by decide)]

/-- Witness for C7: the selector 20250822 is accepted. -/
theorem nightly_date_validation_witness :
    exOk (nightly_url_for_date "sansae200" "20250822") = true :=
  (nightly_date_validation "sansae200" "20250822").1.mpr (by decide)

/-- C3 (code-bug record): on a destination whose reserved snapshot directory
holds no snapshots, revert with selector "latest" ends in the uncaught
`IndexError` of `list_backups(mp)[-1]`, not in the typed `NotFound` the spec
requires; the `mkdir` of the reserved directory has already happened by
then. -/
theorem revert_latest_empty_crashes :
    (mainRevert ⟨⟨[[]], []⟩, []⟩ "latest" false).outcome
        = Except.error Err.indexError
  ∧ (mainRevert ⟨⟨[[]], []⟩, []⟩ "latest" false).outcome
        ≠ Except.error Err.notFound
  ∧ backupsPath ∈ (mainRevert ⟨⟨[[]], []⟩, []⟩ "latest" false).vol.dirs := by
  refine ⟨rfl, ?_, by decide⟩
  intro h
  rw [show (mainRevert ⟨⟨[[]], []⟩, []⟩ "latest" false).outcome
      = Except.error Err.indexError from rfl] at h
  exact absurd (Except.error.inj h) (by decide)

/-- C4 counterexample: a dry-run install on a destination whose managed
subtree `.rockbox` exists creates the reserved snapshot directory
`.rockbox_backups` — the destination tree is not left unchanged, so dry-run
does perform a filesystem write. -/
theorem dry_run_creates_backup_dir :
    backupsPath ∈ (mainInstall (fun _ => Except.error Err.unreachable)
        (fun _ => Except.error Err.unreachable) "sansae200"
        (Selector.date "20250822") true "20250101-000000"
        ⟨⟨[[], dotPath], []⟩, []⟩).vol.dirs
  ∧ backupsPath ∉ ((⟨⟨[[], dotPath], []⟩, []⟩ : World)).vol.dirs := by
  exact ⟨by decide, by decide⟩

/-- C4 amended: a dry-run install fetches no artifact bytes (the run is
independent of the byte-fetch capability), writes no snapshot archive,
unpacks nothing and merges nothing, alters no file and no snapshot record —
but it does probe writability and, when the managed subtree exists, creates
the reserved snapshot directory, so the destination tree is not entirely
unchanged. -/
theorem dry_run_effects (cap : String → Except Err Page)
    (fb fb' : String → Except Err Zip) (device : String) (sel : Selector)
    (ts : String) (w : World) (url : String)
    (hres : resolveUrl cap device sel = Except.ok url) :
    (mainInstall cap fb device sel true ts w).outcome = Except.ok ()
  ∧ (mainInstall cap fb device sel true ts w).vol.files = w.vol.files
  ∧ (mainInstall cap fb device sel true ts w).tars = w.tars
  ∧ (∀ p, p ∈ (mainInstall cap fb device sel true ts w).vol.dirs
      ↔ p ∈ w.vol.dirs ∨ (p = backupsPath ∧ pathExistsB w.vol dotPath = true))
  ∧ (∀ e ∈ (mainInstall cap fb device sel true ts w).trace,
      (∀ u, e ≠ Event.fetch u) ∧ (∀ q, e ≠ Event.snapshotWrite q)
        ∧ e ≠ Event.unpack ∧ e ≠ Event.mergeWrite)
  ∧ mainInstall cap fb device sel true ts w
      = mainInstall cap fb' device sel true ts w := by
  have hrun : ∀ g : String → Except Err Zip,
      mainInstall cap g device sel true ts w
        = ⟨(if pathExistsB w.vol dotPath = true
              then mkdirExistOk w.vol backupsPath else w.vol),
           w.tars,
           (if pathExistsB w.vol dotPath = true
              then [Event.resolve url, Event.writeProbe, Event.mkdirBackups]
              else [Event.resolve url, Event.writeProbe]),
           Except.ok ()⟩ := by
    intro g
    unfold mainInstall
    rw [hres]
    by_cases hdot : pathExistsB w.vol dotPath = true
    · simp [ensure_writableSt, create_backupSt, backups_dirSt, hdot]
    · simp [ensure_writableSt, create_backupSt, backups_dirSt, hdot]
  refine ⟨?_, ?_, ?_, ?_, ?_, ?_⟩
  · rw [hrun fb]
  · rw [hrun fb]
    by_cases hdot : pathExistsB w.vol dotPath = true
    · simp [hdot, files_mkdir]
    · simp [hdot]
  · rw [hrun fb]
  · intro p
    rw [hrun fb]
    by_cases hdot : pathExistsB w.vol dotPath = true
    · simp only [hdot, if_true, mem_dirs_mkdir, and_true]
    · simp [hdot]
  · intro e he
    rw [hrun fb] at he
    by_cases hdot : pathExistsB w.vol dotPath = true
    · rw [if_pos hdot, if_pos hdot] at he
      have he' : e ∈ [Event.resolve url, Event.writeProbe, Event.mkdirBackups] := he
      simp only [List.mem_cons, List.not_mem_nil, or_false] at he'
      rcases he' with rfl | rfl | rfl <;>
        exact ⟨fun u h => Event.noConfusion h, fun q h => Event.noConfusion h,
          fun h => Event.noConfusion h, fun h => Event.noConfusion h⟩
    · rw [if_neg hdot, if_neg hdot] at he
      have he' : e ∈ [Event.resolve url, Event.writeProbe] := he
      simp only [List.mem_cons, List.not_mem_nil, or_false] at he'
      rcases he' with rfl | rfl <;>
        exact ⟨fun u h => Event.noConfusion h, fun q h => Event.noConfusion h,
          fun h => Event.noConfusion h, fun h => Event.noConfusion h⟩
  · rw [hrun fb, hrun fb']

/-- Witness for C4's amended theorem at a concrete dry run. -/
theorem dry_run_effects_witness :
    (mainInstall (fun _ => Except.error Err.unreachable)
        (fun _ => Except.error Err.unreachable) "sansae200"
        (Selector.date "20250822") true "20250101-000000"
        ⟨⟨[[], dotPath], []⟩, []⟩).outcome = Except.ok () :=
  (dry_run_effects (fun _ => Except.error Err.unreachable)
      (fun _ => Except.error Err.unreachable)
      (fun _ => Except.error Err.unreachable) "sansae200"
      (Selector.date "20250822") "20250101-000000"
      ⟨⟨[[], dotPath], []⟩, []⟩
      (nightlyZipUrl "sansae200" "20250822") rfl).1

/-- A concrete artifact zip shipping `.rockbox/rockbox.bin`. -/
def zipC5 : Zip :=
  ⟨[".rockbox/rockbox.bin"], ⟨[[], dotPath], [(dotPath ++ ["rockbox.bin"], [7])]⟩⟩

/-- A concrete destination world whose managed subtree exists. -/
def worldC5 : World := ⟨⟨[[], dotPath], [(dotPath ++ ["rockbox.bin"], [0])]⟩, []⟩

/-- A concrete successful non-dry install run. -/
def runC5 : RunResult :=
  mainInstall (fun _ => Except.error Err.unreachable) (fun _ => Except.ok zipC5)
    "sansae200" (Selector.date "20250822") false "20250101-000000" worldC5

/-- Recognizer for snapshot-write events. -/
def isSnapEvent : Event → Bool
  | Event.snapshotWrite _ => true
  | _ => false

/-- Recognizer for artifact-fetch events. -/
def isFetchEvent : Event → Bool
  | Event.fetch _ => true
  | _ => false

/-- C5 counterexample: in a successful non-dry install the snapshot write
happens strictly before the artifact fetch (a snapshot event occurs in the
trace before any fetch event), contradicting the claimed order
resolve → fetch → validate → snapshot. -/
theorem install_snapshot_before_fetch :
    ((runC5.trace.takeWhile (fun e => !isFetchEvent e)).any isSnapEvent) = true
  ∧ runC5.trace.any isFetchEvent = true
  ∧ runC5.outcome = Except.ok () := by
  exact ⟨rfl, rfl, rfl⟩

/-- C5 amended: for every successful non-dry install (resolution, fetch and
validation succeed and the managed subtree exists), the pipeline order is
resolve locator → writability probe → snapshot-directory mkdir → snapshot
write → artifact fetch → archive validation → unpack → merge; the snapshot
is taken before the fetch and the validation, not after. -/
theorem install_pipeline_order (cap : String → Except Err Page)
    (fb : String → Except Err Zip) (device : String) (sel : Selector)
    (ts : String) (w : World) (url : String) (z : Zip)
    (hres : resolveUrl cap device sel = Except.ok url)
    (hfetch : fb url = Except.ok z)
    (hzip : zipHasRockbox z = true)
    (hdot : pathExistsB w.vol dotPath = true) :
    (mainInstall cap fb device sel false ts w).trace
      = [Event.resolve url, Event.writeProbe, Event.mkdirBackups,
         Event.snapshotWrite (backupsPath ++ [tarName ts]),
         Event.fetch url, Event.validate, Event.unpack, Event.mergeWrite]
  ∧ (mainInstall cap fb device sel false ts w).outcome = Except.ok () := by
  unfold mainInstall
  rw [hres]
  simp [ensure_writableSt, create_backupSt, backups_dirSt, unzip_and_deploySt,
    hdot, hfetch, hzip]

/-- Witness for C5's amended theorem at the concrete run. -/
theorem install_pipeline_order_witness :
    (mainInstall (fun _ => Except.error Err.unreachable)
        (fun _ => Except.ok zipC5) "sansae200" (Selector.date "20250822")
        false "20250101-000000" worldC5).outcome = Except.ok () :=
  (install_pipeline_order (fun _ => Except.error Err.unreachable)
      (fun _ => Except.ok zipC5) "sansae200" (Selector.date "20250822")
      "20250101-000000" worldC5 (nightlyZipUrl "sansae200" "20250822") zipC5
      rfl rfl (by decide) (by decide)).2

theorem revertWith_dirs_mono (bt : Path) (dry : Bool) (s : St) (q : Path)
    (h : q ∈ s.vol.dirs) : q ∈ (revertWith bt dry s).vol.dirs := by
  unfold revertWith
  split
  · split
    · exact h
    · exact (mem_dirs_mergeCopyAt _ _ _ _).mpr (Or.inl h)
  · exact h

theorem revertWith_dirs_bound (bt : Path) (dry : Bool) (s : St) (q : Path)
    (h : q ∈ (revertWith bt dry s).vol.dirs) :
    q ∈ s.vol.dirs ∨ q = dotPath ∨ ∃ d, q = dotPath ++ d := by
  unfold revertWith at h
  split at h
  · split at h
    · exact Or.inl h
    · rcases (mem_dirs_mergeCopyAt _ _ _ _).mp h with h | h | ⟨d, _, hd⟩
      · exact Or.inl h
      · exact Or.inr (Or.inl h)
      · exact Or.inr (Or.inr ⟨d, hd⟩)
  · exact Or.inl h

theorem backupsPath_ne_under_dot (d : Path) : backupsPath ≠ dotPath ++ d := by
  intro h
  rw [show backupsPath = [".rockbox_backups"] from rfl,
    show dotPath = [".rockbox"] from rfl] at h
  rw [List.cons_append, List.nil_append] at h
  injection h with h1 h2
  exact absurd h1 (by decide)

/-- A concrete destination world with a loose tar file and no reserved
snapshot directory. -/
def worldC10 : World := ⟨⟨[[]], [(["old.tar.gz"], [1])]⟩, []⟩

/-- C10 counterexample: a revert given an explicit snapshot path never calls
the snapshot-list operation, so it does not create the reserved snapshot
directory — "every revert invocation" is too strong. -/
theorem revert_explicit_no_backupdir :
    (mainRevert worldC10 "old.tar.gz" true).outcome = Except.ok ()
  ∧ backupsPath ∉ (mainRevert worldC10 "old.tar.gz" true).vol.dirs
  ∧ backupsPath ∉ worldC10.vol.dirs := by
  exact ⟨rfl, by decide, by decide⟩

/-- C10 amended: the snapshot-list operation is not read-only — it creates
the reserved snapshot directory whenever absent, and therefore so does every
revert with selector "latest" (dry-run included); a revert given an explicit
snapshot path never invokes the list operation and never creates the
directory. -/
theorem list_backups_creates_dir (w : World) (sel : String) (dry : Bool) :
    backupsPath ∈ (list_backupsOp w.vol).2.dirs
  ∧ backupsPath ∈ (mainRevert w "latest" dry).vol.dirs
  ∧ (sel ≠ "latest" → backupsPath ∉ w.vol.dirs →
      backupsPath ∉ (mainRevert w sel dry).vol.dirs) := by
  refine ⟨?_, ?_, ?_⟩
  · exact (mem_dirs_mkdir _ _ _).mpr (Or.inr rfl)
  · unfold mainRevert
    rw [if_pos rfl]
    cases hl : (list_backupsOp w.vol).1.getLast? with
    | none =>
      simp only [hl]
      exact (mem_dirs_mkdir _ _ _).mpr (Or.inr rfl)
    | some bt =>
      simp only [hl]
      exact revertWith_dirs_mono _ _ _ _ ((mem_dirs_mkdir _ _ _).mpr (Or.inr rfl))
  · intro hsel hmem hres
    unfold mainRevert at hres
    rw [if_neg hsel] at hres
    rcases revertWith_dirs_bound _ _ _ _ hres with h | h | ⟨d, hd⟩
    · exact hmem h
    · exact absurd h (by decide)
    · exact backupsPath_ne_under_dot d hd

/-- Witness for C10's amended theorem: the concrete world with no reserved
directory, under a "latest" revert and under an explicit-path revert. -/
theorem list_backups_creates_dir_witness :
    backupsPath ∈ (mainRevert worldC10 "latest" true).vol.dirs
  ∧ backupsPath ∉ (mainRevert worldC10 "old.tar.gz" false).vol.dirs :=
  ⟨(list_backups_creates_dir worldC10 "old.tar.gz" true).2.1,
   (list_backups_creates_dir worldC10 "old.tar.gz" false).2.2
     (by decide) (by decide)⟩

end RockboxFetch
